import Mathlib

/-!
Shallow embedding of `src/griffe/diff.py`: the breaking-change detection
engine of the griffe repository.  Declaration trees are modelled by the
nested inductive `Obj`; heterogeneous Python values (parameter defaults,
attribute values, return-type expressions, base-class references) are
modelled by `Value`, whose equality comparison may raise an exception, as
Python `__eq__` can.  Generators are modelled as the list of breakages
yielded before termination together with the exception, if any, that
escaped (`GenResult`).
-/

/-- Names of Python exception classes that a value comparison can raise. -/
inductive ExcName where
  | attributeError
  | typeError
  | valueError
deriving DecidableEq

/-- Model of the heterogeneous Python values compared by the engine.
`lit` values compare by ordinary string equality and never fail;
`raising` values raise the recorded exception whenever they are compared,
like objects whose `__eq__` is not well defined (e.g. numpy arrays). -/
inductive Value where
  | lit (s : String)
  | raising (id : Nat) (e : ExcName)
deriving DecidableEq

/-- Python `a == b` on two values: either a boolean, or a raised exception. -/
def pyEq : Value → Value → Except ExcName Bool
  | .raising _ e, _ => .error e
  | _, .raising _ e => .error e
  | .lit s, .lit t => .ok (s == t)

/-- Python `a == b` where either side may be `None` (an absent value).
Comparing `None` with a well-behaved value yields `False`; a `raising`
value raises even against `None` (reflected comparison). -/
def optEq : Option Value → Option Value → Except ExcName Bool
  | none, none => .ok true
  | some a, some b => pyEq a b
  | none, some (.raising _ e) => .error e
  | some (.raising _ e), none => .error e
  | none, some (.lit _) => .ok false
  | some (.lit _), none => .ok false

/-- Element-wise part of Python list equality (used after the length check). -/
def listEqAux : List Value → List Value → Except ExcName Bool
  | [], [] => .ok true
  | [], _ :: _ => .ok false
  | _ :: _, [] => .ok false
  | a :: as, b :: bs =>
    match pyEq a b with
    | .error e => .error e
    | .ok false => .ok false
    | .ok true => listEqAux as bs

/-- Python `a == b` on two lists: CPython compares lengths first (no element
comparison, hence no exception, on a length mismatch), then element-wise. -/
def listEqV (a b : List Value) : Except ExcName Bool :=
  if a.length = b.length then listEqAux a b else .ok false

/-- Embeds `griffe.dataclasses.ParameterKind`. -/
inductive ParameterKind where
  | positional_only
  | positional_or_keyword
  | keyword_only
  | var_positional
  | var_keyword
deriving DecidableEq

/-- Embeds the module constant `POSITIONAL`, the frozenset
`{positional_only, positional_or_keyword}`, as a membership test. -/
def POSITIONAL (k : ParameterKind) : Bool :=
  k == .positional_only || k == .positional_or_keyword

/-- Embeds `griffe.dataclasses.Parameter`: the fields read by the diff
engine (name, kind, default; the annotation is never read by any rule). -/
structure Parameter where
  name : String
  kind : ParameterKind
  default : Option Value
deriving DecidableEq

/-- Kind tag of a declaration-tree node (module / class / function /
attribute, plus the alias indirection). -/
inductive Kind where
  | MODULE
  | CLASS
  | FUNCTION
  | ATTRIBUTE
  | ALIAS
deriving DecidableEq

/-- Embeds the external declaration-tree node consumed read-only by the
engine: name, kind tag, the result of the `is_exported(explicitely=False)`
collaborator predicate, the ordered member mapping, and the kind-specific
payloads (parameters/returns for functions, value for attributes, bases
for classes).  A single node shape carries all payloads, mirroring the
duck-typed Python objects. -/
inductive Obj where
  | mk (name : String) (kind : Kind) (is_exported : Bool)
      (members : List (String × Obj))
      (parameters : List Parameter)
      (returns : Option Value)
      (value : Option Value)
      (bases : List Value)

def Obj.name : Obj → String
  | .mk n _ _ _ _ _ _ _ => n

def Obj.kind : Obj → Kind
  | .mk _ k _ _ _ _ _ _ => k

def Obj.is_exported : Obj → Bool
  | .mk _ _ e _ _ _ _ _ => e

def Obj.members : Obj → List (String × Obj)
  | .mk _ _ _ ms _ _ _ _ => ms

def Obj.parameters : Obj → List Parameter
  | .mk _ _ _ _ ps _ _ _ => ps

def Obj.returns : Obj → Option Value
  | .mk _ _ _ _ _ r _ _ => r

def Obj.value : Obj → Option Value
  | .mk _ _ _ _ _ _ v _ => v

def Obj.bases : Obj → List Value
  | .mk _ _ _ _ _ _ _ bs => bs

def Obj.is_alias (o : Obj) : Bool := o.kind == .ALIAS

def Obj.is_module (o : Obj) : Bool := o.kind == .MODULE

def Obj.is_class (o : Obj) : Bool := o.kind == .CLASS

def Obj.is_function (o : Obj) : Bool := o.kind == .FUNCTION

def Obj.is_attribute (o : Obj) : Bool := o.kind == .ATTRIBUTE

/-- Embeds the enumeration `BreakageKind` of `diff.py`. -/
inductive BreakageKind where
  | PARAMETER_MOVED
  | PARAMETER_REMOVED
  | PARAMETER_CHANGED_KIND
  | PARAMETER_CHANGED_DEFAULT
  | PARAMETER_CHANGED_REQUIRED
  | PARAMETER_ADDED_REQUIRED
  | RETURN_CHANGED_TYPE
  | OBJECT_REMOVED
  | OBJECT_CHANGED_KIND
  | ATTRIBUTE_CHANGED_TYPE
  | ATTRIBUTE_CHANGED_VALUE
  | CLASS_REMOVED_BASE
deriving DecidableEq

/-- Embeds the enumeration `Severity` of `diff.py`. -/
inductive Severity where
  | VERY_LOW
  | LOW
  | MEDIUM
  | HIGH
  | VERY_HIGH
deriving DecidableEq

/-- Embeds `Severity.up`: one step up the five-element order, saturating. -/
def Severity.up : Severity → Severity
  | .VERY_LOW => .LOW
  | .LOW => .MEDIUM
  | .MEDIUM => .HIGH
  | .HIGH => .VERY_HIGH
  | .VERY_HIGH => .VERY_HIGH

/-- Embeds `Severity.down`: one step down the order, saturating. -/
def Severity.down : Severity → Severity
  | .VERY_LOW => .VERY_LOW
  | .LOW => .VERY_LOW
  | .MEDIUM => .LOW
  | .HIGH => .MEDIUM
  | .VERY_HIGH => .HIGH

/-- The `default_severity` class attribute of each concrete `Breakage`
subclass, read off the twelve subclass declarations in `diff.py`. -/
def default_severity : BreakageKind → Severity
  | .PARAMETER_MOVED => .VERY_HIGH
  | .PARAMETER_REMOVED => .MEDIUM
  | .PARAMETER_CHANGED_KIND => .MEDIUM
  | .PARAMETER_CHANGED_DEFAULT => .VERY_HIGH
  | .PARAMETER_CHANGED_REQUIRED => .MEDIUM
  | .PARAMETER_ADDED_REQUIRED => .HIGH
  | .RETURN_CHANGED_TYPE => .MEDIUM
  | .OBJECT_REMOVED => .MEDIUM
  | .OBJECT_CHANGED_KIND => .LOW
  | .ATTRIBUTE_CHANGED_TYPE => .VERY_HIGH
  | .ATTRIBUTE_CHANGED_VALUE => .LOW
  | .CLASS_REMOVED_BASE => .LOW

/-- Heterogeneous `old_value` / `new_value` payload of a breakage record:
it may be absent (`None` in the source), a parameter, a whole node, a kind
tag, a raw value, or a base-class list. -/
inductive BVal where
  | none
  | param (p : Parameter)
  | obj (o : Obj)
  | kind (k : Kind)
  | value (v : Option Value)
  | bases (bs : List Value)

/-- Embeds the `Breakage` record: kind tag, subject node `obj`, the old and
new values and the detail string. -/
structure Breakage where
  kind : BreakageKind
  obj : Obj
  old_value : BVal
  new_value : BVal
  details : String

/-- Constructor of `ParameterMovedBreakage(obj, old_value, new_value, details)`. -/
def ParameterMovedBreakage (obj : Obj) (old_value new_value : Parameter)
    (details : String := "") : Breakage :=
  ⟨.PARAMETER_MOVED, obj, .param old_value, .param new_value, details⟩

/-- Constructor of `ParameterRemovedBreakage(obj, old_param, None)`. -/
def ParameterRemovedBreakage (obj : Obj) (old_value : Parameter) : Breakage :=
  ⟨.PARAMETER_REMOVED, obj, .param old_value, .none, ""⟩

/-- Constructor of `ParameterChangedKindBreakage(obj, old_param, new_param)`. -/
def ParameterChangedKindBreakage (obj : Obj) (old_value new_value : Parameter) : Breakage :=
  ⟨.PARAMETER_CHANGED_KIND, obj, .param old_value, .param new_value, ""⟩

/-- Constructor of `ParameterChangedDefaultBreakage(obj, old_param, new_param)`. -/
def ParameterChangedDefaultBreakage (obj : Obj) (old_value new_value : Parameter) : Breakage :=
  ⟨.PARAMETER_CHANGED_DEFAULT, obj, .param old_value, .param new_value, ""⟩

/-- Constructor of `ParameterChangedRequiredBreakage(obj, old_param, new_param)`. -/
def ParameterChangedRequiredBreakage (obj : Obj) (old_value new_value : Parameter) : Breakage :=
  ⟨.PARAMETER_CHANGED_REQUIRED, obj, .param old_value, .param new_value, ""⟩

/-- Constructor of `ParameterAddedRequiredBreakage(obj, None, new_param)`. -/
def ParameterAddedRequiredBreakage (obj : Obj) (new_value : Parameter) : Breakage :=
  ⟨.PARAMETER_ADDED_REQUIRED, obj, .none, .param new_value, ""⟩

/-- Constructor of `ReturnChangedTypeBreakage(obj, old_returns, new_returns)`. -/
def ReturnChangedTypeBreakage (obj : Obj) (old_value new_value : Option Value) : Breakage :=
  ⟨.RETURN_CHANGED_TYPE, obj, .value old_value, .value new_value, ""⟩

/-- Constructor of `ObjectRemovedBreakage(old_member, old_member, None)`. -/
def ObjectRemovedBreakage (obj : Obj) (old_value : Obj) : Breakage :=
  ⟨.OBJECT_REMOVED, obj, .obj old_value, .none, ""⟩

/-- Constructor of `ObjectChangedKindBreakage(obj, old_kind, new_kind)`. -/
def ObjectChangedKindBreakage (obj : Obj) (old_value new_value : Kind) : Breakage :=
  ⟨.OBJECT_CHANGED_KIND, obj, .kind old_value, .kind new_value, ""⟩

/-- Constructor of `AttributeChangedValueBreakage(obj, old_value, new_value)`. -/
def AttributeChangedValueBreakage (obj : Obj) (old_value new_value : Option Value) : Breakage :=
  ⟨.ATTRIBUTE_CHANGED_VALUE, obj, .value old_value, .value new_value, ""⟩

/-- Constructor of `ClassRemovedBaseBreakage(obj, old_bases, new_bases)`. -/
def ClassRemovedBaseBreakage (obj : Obj) (old_value new_value : List Value) : Breakage :=
  ⟨.CLASS_REMOVED_BASE, obj, .bases old_value, .bases new_value, ""⟩

/-- The `severity` property.  Every subclass inherits the base property,
which returns `default_severity`, except `ParameterMovedBreakage`, whose
override reads `self.old_value.default`: when the old parameter has no
default it returns `self.default_severity.up()`, and otherwise it falls
off the end of the property, i.e. Python returns `None` — modelled here
as `Option.none`.  (The engine only ever builds `PARAMETER_MOVED`
breakages whose `old_value` is a `Parameter`; a different payload would
make the attribute access itself fail, and is also modelled as `none`.) -/
def Breakage.severity (b : Breakage) : Option Severity :=
  match b.kind, b.old_value with
  | .PARAMETER_MOVED, .param p =>
    if p.default = none then some (default_severity .PARAMETER_MOVED).up else none
  | .PARAMETER_MOVED, _ => none
  | k, _ => some (default_severity k)

/-- Result of running a generator to completion: the breakages yielded
before termination, and the exception that escaped, if any. -/
abbrev GenResult := List Breakage × Option ExcName

/-- Sequencing of two generator runs (`yield from` one after the other):
if the first raises, the second never runs. -/
def seqGen (a b : GenResult) : GenResult :=
  match a with
  | (l, Option.none) => (l ++ b.1, b.2)
  | (l, some e) => (l, some e)

/-- Name-keyed lookup in an ordered member mapping (`obj.members[name]`),
returning `none` on a `KeyError`. -/
def lookupMember : List (String × Obj) → String → Option Obj
  | [], _ => none
  | (n, m) :: rest, name => if n == name then some m else lookupMember rest name

/-- Name-keyed lookup in a parameter list (`function.parameters[name]`,
also backing the `in` containment test). -/
def paramLookup : List Parameter → String → Option Parameter
  | [], _ => none
  | p :: rest, name => if p.name == name then some p else paramLookup rest name

/-- Python `name in function.parameters`. -/
def paramContains (ps : List Parameter) (name : String) : Bool :=
  (paramLookup ps name).isSome

/-- Python `list.index(name)`: index of the first occurrence of `name`
(the engine only calls it when the name is present). -/
def indexOfName : List String → String → Nat
  | [], _ => 0
  | n :: rest, name => if n == name then 0 else indexOfName rest name + 1

/-- Python `name.startswith("_")`: the private-name convention test. -/
def startsWithUnderscore (name : String) : Bool :=
  match name.data with
  | [] => false
  | c :: _ => c == '_'

/-- Embeds `_is_param_required`: positional category and no default. -/
def _is_param_required (param : Parameter) : Bool :=
  POSITIONAL param.kind && param.default.isNone

/-- The f-string `{new_index - old_index:+}`: the signed position delta. -/
def signedDelta (new_index old_index : Nat) : String :=
  let d : Int := (new_index : Int) - (old_index : Int)
  if 0 ≤ d then "+" ++ toString d else toString d

/-- The details f-string of a `PARAMETER_MOVED` breakage:
`position: from {old_index} to {new_index} ({delta:+})`. -/
def movedDetails (old_index new_index : Nat) : String :=
  "position: from " ++ toString old_index ++ " to " ++ toString new_index ++
    " (" ++ signedDelta new_index old_index ++ ")"

/-- The positional block of the old-parameter loop in
`_function_incompatibilities`: when the old parameter is positional,
either its kind left the positional category (`PARAMETER_CHANGED_KIND`)
or, if still positional, its index may have moved (`PARAMETER_MOVED`). -/
def _positional_check (new_function : Obj) (new_params : List Parameter)
    (old_index : Nat) (old_param new_param : Parameter) : List Breakage :=
  if POSITIONAL old_param.kind then
    if !POSITIONAL new_param.kind then
      [ParameterChangedKindBreakage new_function old_param new_param]
    else
      let new_index := indexOfName (new_params.map Parameter.name) old_param.name
      if new_index ≠ old_index then
        [ParameterMovedBreakage new_function old_param new_param
          (movedDetails old_index new_index)]
      else []
  else []

/-- The guarded default comparison of the old-parameter loop: the breakage
is yielded when the defaults compare unequal, and also when the comparison
raises (the `try`/`except Exception` block of the source). -/
def _default_check (new_function : Obj) (old_param new_param : Parameter) : List Breakage :=
  match optEq old_param.default new_param.default with
  | .ok true => []
  | .ok false => [ParameterChangedDefaultBreakage new_function old_param new_param]
  | .error _ => [ParameterChangedDefaultBreakage new_function old_param new_param]

/-- One iteration of the old-parameter loop of
`_function_incompatibilities`, for the old parameter at `old_index`. -/
def _function_param_check (new_function : Obj) (new_params : List Parameter)
    (old_index : Nat) (old_param : Parameter) : List Breakage :=
  match paramLookup new_params old_param.name with
  | none => [ParameterRemovedBreakage new_function old_param]
  | some new_param =>
    (if _is_param_required new_param && !_is_param_required old_param then
      [ParameterChangedRequiredBreakage new_function old_param new_param]
    else [])
    ++ _positional_check new_function new_params old_index old_param new_param
    ++ _default_check new_function old_param new_param

/-- The whole old-parameter loop (`for old_index, old_param in
enumerate(old_function.parameters)`), starting at index `old_index`. -/
def _old_params_loop (new_function : Obj) (new_params : List Parameter) :
    Nat → List Parameter → List Breakage
  | _, [] => []
  | old_index, old_param :: rest =>
    _function_param_check new_function new_params old_index old_param
      ++ _old_params_loop new_function new_params (old_index + 1) rest

/-- The new-parameter loop of `_function_incompatibilities`: a new
parameter absent from the old parameters and required yields
`PARAMETER_ADDED_REQUIRED`. -/
def _new_params_loop (new_function : Obj) (old_params : List Parameter) :
    List Parameter → List Breakage
  | [] => []
  | new_param :: rest =>
    (if !paramContains old_params new_param.name && _is_param_required new_param then
      [ParameterAddedRequiredBreakage new_function new_param]
    else [])
    ++ _new_params_loop new_function old_params rest

/-- Embeds `_returns_are_compatible`: no old return type is always
compatible; a dropped return type is incompatible; otherwise the two
expressions are compared with `==` under `contextlib.suppress(AttributeError)`
and the function falls through to compatible whatever boolean the
comparison produced, while any exception other than `AttributeError`
escapes. -/
def _returns_are_compatible (old_function new_function : Obj) : Except ExcName Bool :=
  match old_function.returns with
  | none => .ok true
  | some old_ret =>
    match new_function.returns with
    | none => .ok false
    | some new_ret =>
      match pyEq new_ret old_ret with
      | .ok _ => .ok true
      | .error e => if e = .attributeError then .ok true else .error e

/-- Embeds `_function_incompatibilities`: the old-parameter loop, then the
new-parameter loop, then the return-type check.  The return-type check is
the only unguarded comparison, so it is the only possible source of an
escaping exception. -/
def _function_incompatibilities (old_function new_function : Obj) : GenResult :=
  let core := _old_params_loop new_function new_function.parameters 0 old_function.parameters
    ++ _new_params_loop new_function old_function.parameters new_function.parameters
  match _returns_are_compatible old_function new_function with
  | .ok true => (core, none)
  | .ok false =>
    (core ++ [ReturnChangedTypeBreakage new_function old_function.returns new_function.returns],
      none)
  | .error e => (core, some e)

/-- Embeds `_attribute_incompatibilities`: the unguarded value comparison;
an exception raised by it escapes before anything is yielded. -/
def _attribute_incompatibilities (old_attribute new_attribute : Obj) : GenResult :=
  match optEq old_attribute.value new_attribute.value with
  | .ok true => ([], none)
  | .ok false =>
    ([AttributeChangedValueBreakage new_attribute old_attribute.value new_attribute.value], none)
  | .error e => ([], some e)

theorem Obj.sizeOf_members_lt (o : Obj) : sizeOf o.members < sizeOf o := by
  cases o with
  | mk n k e ms ps r v bs => simp [Obj.members]; omega

mutual
/-- Embeds `_member_incompatibilities`, the recursive member walk and the
public entry point (`find_breaking_changes`). -/
def _member_incompatibilities (old_obj new_obj : Obj)
    (ignore_private : Bool := true) : GenResult :=
  _members_walk old_obj.members new_obj ignore_private
termination_by (sizeOf old_obj, 0)
decreasing_by
  have := old_obj.sizeOf_members_lt
  omega

/-- The `for name, old_member in old_obj.members.items()` loop of
`_member_incompatibilities`. -/
def _members_walk (old_members : List (String × Obj)) (new_obj : Obj)
    (ignore_private : Bool) : GenResult :=
  match old_members with
  | [] => ([], none)
  | (name, old_member) :: rest =>
    seqGen (_member_check name old_member new_obj ignore_private)
      (_members_walk rest new_obj ignore_private)
termination_by (sizeOf old_members, 3)

/-- One iteration of the member loop: the private-name skip, the
`KeyError` branch, the alias skip, the kind comparison and the dispatch
by kind. -/
def _member_check (name : String) (old_member : Obj) (new_obj : Obj)
    (ignore_private : Bool) : GenResult :=
  if ignore_private && startsWithUnderscore name then ([], none)
  else
    match lookupMember new_obj.members name with
    | none =>
      (if old_member.is_exported then [ObjectRemovedBreakage old_member old_member] else [],
        none)
    | some new_member =>
      if old_member.is_alias then ([], none)
      else if new_member.kind ≠ old_member.kind then
        ([ObjectChangedKindBreakage new_member old_member.kind new_member.kind], none)
      else if old_member.is_module then
        _member_incompatibilities old_member new_member ignore_private
      else if old_member.is_class then
        _class_incompatibilities old_member new_member ignore_private
      else if old_member.is_function then
        _function_incompatibilities old_member new_member
      else if old_member.is_attribute then
        _attribute_incompatibilities old_member new_member
      else ([], none)
termination_by (sizeOf old_member, 2)

/-- Embeds `_class_incompatibilities`: the base-class comparison (a
removal is flagged only when the base lists differ and the new one is
strictly shorter), then the member walk over the class members. -/
def _class_incompatibilities (old_class new_class : Obj)
    (ignore_private : Bool) : GenResult :=
  match listEqV new_class.bases old_class.bases with
  | .error e => ([], some e)
  | .ok bases_eq =>
    let base_part : List Breakage :=
      if bases_eq then []
      else if new_class.bases.length < old_class.bases.length then
        [ClassRemovedBaseBreakage new_class old_class.bases new_class.bases]
      else []
    seqGen (base_part, none)
      (_member_incompatibilities old_class new_class ignore_private)
termination_by (sizeOf old_class, 1)
end

/-- Embeds the module-level alias `find_breaking_changes =
_member_incompatibilities`. -/
def find_breaking_changes (old_obj new_obj : Obj)
    (ignore_private : Bool := true) : GenResult :=
  _member_incompatibilities old_obj new_obj ignore_private

/-- A value whose equality comparison is deterministic and never raises. -/
def Value.wellBehaved : Value → Bool
  | .lit _ => true
  | .raising _ _ => false

/-- A possibly-absent value whose comparison never raises. -/
def optWellBehaved : Option Value → Bool
  | none => true
  | some v => v.wellBehaved

mutual
/-- Input contract of a declaration tree, as the engine's collaborators
provide it: member mappings are dict-backed (unique names), parameter
names are unique within a function (Python syntax guarantees it), and
every value the engine compares (defaults, attribute values, return
expressions, bases) has deterministic, non-failing equality. -/
def wellFormed (o : Obj) : Bool :=
  decide ((o.members.map Prod.fst).Nodup)
    && decide ((o.parameters.map Parameter.name).Nodup)
    && o.parameters.all (fun p => optWellBehaved p.default)
    && optWellBehaved o.returns
    && optWellBehaved o.value
    && o.bases.all Value.wellBehaved
    && wellFormedMembers o.members
termination_by sizeOf o
decreasing_by
  have := o.sizeOf_members_lt
  omega

/-- `wellFormed` for every member of a member list. -/
def wellFormedMembers : List (String × Obj) → Bool
  | [] => true
  | (_, m) :: rest => wellFormed m && wellFormedMembers rest
termination_by ms => sizeOf ms
end

/-- `new_obj` with its top-level member mapping restricted to the names in
`names` (iteration order preserved).  Used to state that members present
only in the new tree never influence the walk. -/
def restrictMembers (new_obj : Obj) (names : List String) : Obj :=
  match new_obj with
  | .mk n k e ms ps r v bs =>
    .mk n k e (ms.filter (fun m => names.contains m.1)) ps r v bs

/-- C1: the claim says `ParameterMovedBreakage.severity` returns a
`Severity` in every case — one step above the default (saturating at
very-high) when the old parameter has no default, and `default_severity`
otherwise.  The code establishes the escalation branch, but in the
"otherwise" branch the property falls off the end and returns `None`
instead of `default_severity`: the code contradicts its own
`-> Severity` annotation (and `explain()`, which reads
`self.severity.value`). -/
theorem c1_parameter_moved_severity_bug :
    (ParameterMovedBreakage (.mk "f" .FUNCTION true [] [] none none [])
        ⟨"x", .positional_or_keyword, some (.lit "1")⟩
        ⟨"x", .positional_or_keyword, some (.lit "1")⟩ "").severity = none ∧
    (ParameterMovedBreakage (.mk "f" .FUNCTION true [] [] none none [])
        ⟨"x", .positional_only, none⟩ ⟨"x", .positional_only, none⟩ "").severity
      = some ((default_severity .PARAMETER_MOVED).up) ∧
    (default_severity .PARAMETER_MOVED).up = .VERY_HIGH :=
  ⟨rfl, rfl, rfl⟩

/-- C9: `Severity.up` and `Severity.down` saturate at the two ends of the
five-element order and are mutual inverses everywhere else. -/
theorem c9_severity_up_down :
    Severity.up .VERY_HIGH = .VERY_HIGH ∧
    Severity.down .VERY_LOW = .VERY_LOW ∧
    (∀ s : Severity, s ≠ .VERY_HIGH → Severity.down (Severity.up s) = s) ∧
    (∀ s : Severity, s ≠ .VERY_LOW → Severity.up (Severity.down s) = s) := by
  refine ⟨rfl, rfl, ?_, ?_⟩ <;>
    · intro s h
      cases s <;> simp_all [Severity.up, Severity.down]

/-- Witness for C9 at the concrete severity `MEDIUM`. -/
theorem c9_severity_up_down_witness :
    Severity.down (Severity.up .MEDIUM) = .MEDIUM ∧
    Severity.up (Severity.down .MEDIUM) = .MEDIUM :=
  ⟨c9_severity_up_down.2.2.1 .MEDIUM (by decide),
    c9_severity_up_down.2.2.2 .MEDIUM (by decide)⟩

/-- C3 (counterexample): the claim says any failure of the return-type
comparison, whatever exception it raises, is swallowed and treated as
compatible, so that no exception escapes.  In the code only
`AttributeError` is suppressed: here the comparison raises `TypeError`
and the predicate lets it escape. -/
theorem c3_returns_counterexample :
    _returns_are_compatible
      (.mk "f" .FUNCTION true [] [] (some (.raising 0 .typeError)) none [])
      (.mk "f" .FUNCTION true [] [] (some (.lit "int")) none [])
      = .error .typeError :=
  rfl

/-- C3 (amended): the return-type compatibility predicate returns
compatible when the old function declares no return type, incompatible
when only the new one lacks it, and otherwise compares the two
expressions with `==`: a comparison that completes (with either boolean)
yields compatible, a comparison failing with `AttributeError` is
swallowed and yields compatible, and a comparison failing with any other
exception escapes. -/
theorem c3_returns_are_compatible_characterization
    (old_function new_function : Obj) :
    (old_function.returns = none →
      _returns_are_compatible old_function new_function = .ok true) ∧
    (∀ old_ret, old_function.returns = some old_ret → new_function.returns = none →
      _returns_are_compatible old_function new_function = .ok false) ∧
    (∀ old_ret new_ret b, old_function.returns = some old_ret →
      new_function.returns = some new_ret → pyEq new_ret old_ret = .ok b →
      _returns_are_compatible old_function new_function = .ok true) ∧
    (∀ old_ret new_ret, old_function.returns = some old_ret →
      new_function.returns = some new_ret →
      pyEq new_ret old_ret = .error .attributeError →
      _returns_are_compatible old_function new_function = .ok true) ∧
    (∀ old_ret new_ret e, old_function.returns = some old_ret →
      new_function.returns = some new_ret → pyEq new_ret old_ret = .error e →
      e ≠ .attributeError →
      _returns_are_compatible old_function new_function = .error e) := by
  refine ⟨?_, ?_, ?_, ?_, ?_⟩
  · intro h
    simp [_returns_are_compatible, h]
  · intro old_ret h1 h2
    simp [_returns_are_compatible, h1, h2]
  · intro old_ret new_ret b h1 h2 h3
    simp [_returns_are_compatible, h1, h2, h3]
  · intro old_ret new_ret h1 h2 h3
    simp [_returns_are_compatible, h1, h2, h3]
  · intro old_ret new_ret e h1 h2 h3 h4
    simp [_returns_are_compatible, h1, h2, h3, h4]

/-- Witness for C3 (amended), exercising the `AttributeError` branch: the
comparison raises `AttributeError` and the predicate swallows it. -/
theorem c3_returns_are_compatible_witness :
    _returns_are_compatible
      (.mk "f" .FUNCTION true [] [] (some (.raising 0 .attributeError)) none [])
      (.mk "f" .FUNCTION true [] [] (some (.lit "int")) none [])
      = .ok true :=
  (c3_returns_are_compatible_characterization _ _).2.2.2.1
    (.raising 0 .attributeError) (.lit "int") rfl rfl rfl

/-- C2 (counterexample): the claim says a leading-underscore member is
skipped only when not publicly re-exported.  In the code the
private-name skip is unconditional: here `_a` is re-exported
(`is_exported` true) and its value changed, yet the walk yields nothing,
while the identical member under the public name `a` yields the
attribute-value breakage. -/
theorem c2_private_reexported_counterexample :
    find_breaking_changes
      (.mk "m" .MODULE true [("_a", .mk "_a" .ATTRIBUTE true [] [] none (some (.lit "1")) [])]
        [] none none [])
      (.mk "m" .MODULE true [("_a", .mk "_a" .ATTRIBUTE true [] [] none (some (.lit "2")) [])]
        [] none none [])
      true = ([], none) ∧
    (find_breaking_changes
      (.mk "m" .MODULE true [("a", .mk "a" .ATTRIBUTE true [] [] none (some (.lit "1")) [])]
        [] none none [])
      (.mk "m" .MODULE true [("a", .mk "a" .ATTRIBUTE true [] [] none (some (.lit "2")) [])]
        [] none none [])
      true).1.map Breakage.kind = [.ATTRIBUTE_CHANGED_VALUE] := by
  have h1 : startsWithUnderscore "_a" = true := by decide
  have h2 : startsWithUnderscore "a" = false := by decide
  constructor
  · simp [find_breaking_changes, _member_incompatibilities, _members_walk, _member_check,
      Obj.members, h1, seqGen]
  · simp [find_breaking_changes, _member_incompatibilities, _members_walk, _member_check,
      Obj.members, h2, seqGen, lookupMember, Obj.is_alias, Obj.is_module, Obj.is_class,
      Obj.is_function, Obj.is_attribute, Obj.kind, _attribute_incompatibilities, Obj.value,
      optEq, pyEq, AttributeChangedValueBreakage]

/-- C2 (amended): in the member walk with `ignore_private` set, a member
whose name starts with an underscore is always skipped, whatever its
export status — the `is_exported` predicate is not consulted on this
branch. -/
theorem c2_private_always_skipped (name : String) (old_member new_obj : Obj)
    (h : startsWithUnderscore name = true) :
    _member_check name old_member new_obj true = ([], none) := by
  simp [_member_check, h]

/-- Witness for C2 (amended): a re-exported private attribute is skipped. -/
theorem c2_private_always_skipped_witness :
    _member_check "_a" (.mk "_a" .ATTRIBUTE true [] [] none (some (.lit "1")) [])
      (.mk "m" .MODULE true [] [] none none []) true = ([], none) :=
  c2_private_always_skipped "_a" _ _ (by decide)

/-- C4 (counterexample): the claim says the emitted `OBJECT_REMOVED`
breakage has `old_value = new_value =` the old member.  The code calls
`ObjectRemovedBreakage(old_member, old_member, None)`: `obj` and
`old_value` are the old member, but `new_value` is `None`, not the old
member. -/
theorem c4_object_removed_counterexample :
    find_breaking_changes
      (.mk "m" .MODULE true [("a", .mk "a" .ATTRIBUTE true [] [] none (some (.lit "1")) [])]
        [] none none [])
      (.mk "m" .MODULE true [] [] none none [])
      true
      = ([ObjectRemovedBreakage
            (.mk "a" .ATTRIBUTE true [] [] none (some (.lit "1")) [])
            (.mk "a" .ATTRIBUTE true [] [] none (some (.lit "1")) [])], none) ∧
    (ObjectRemovedBreakage
        (.mk "a" .ATTRIBUTE true [] [] none (some (.lit "1")) [])
        (.mk "a" .ATTRIBUTE true [] [] none (some (.lit "1")) [])).new_value = BVal.none ∧
    (ObjectRemovedBreakage
        (.mk "a" .ATTRIBUTE true [] [] none (some (.lit "1")) [])
        (.mk "a" .ATTRIBUTE true [] [] none (some (.lit "1")) [])).new_value
      ≠ BVal.obj (.mk "a" .ATTRIBUTE true [] [] none (some (.lit "1")) []) := by
  have h : startsWithUnderscore "a" = false := by decide
  refine ⟨?_, rfl, ?_⟩
  · simp [find_breaking_changes, _member_incompatibilities, _members_walk, _member_check,
      Obj.members, h, seqGen, lookupMember, Obj.is_exported]
  · intro hc
    simp [ObjectRemovedBreakage] at hc

/-- C4 (amended): when an old member's name has no match in the new
container and the old member is exported (and the name is not skipped as
private), the walker emits exactly one `OBJECT_REMOVED` breakage whose
`obj` and `old_value` are the old member and whose `new_value` is absent
(`None`), and performs no further checks for that name. -/
theorem c4_object_removed_on_missing_name (name : String)
    (old_member new_obj : Obj) (ignore_private : Bool)
    (h1 : (ignore_private && startsWithUnderscore name) = false)
    (h2 : lookupMember new_obj.members name = none)
    (h3 : old_member.is_exported = true) :
    _member_check name old_member new_obj ignore_private
      = ([ObjectRemovedBreakage old_member old_member], none) := by
  simp [_member_check, h1, h2, h3]

/-- Witness for C4 (amended) on a concrete missing exported member. -/
theorem c4_object_removed_on_missing_name_witness :
    _member_check "a" (.mk "a" .ATTRIBUTE true [] [] none (some (.lit "1")) [])
      (.mk "m" .MODULE true [] [] none none []) true
      = ([ObjectRemovedBreakage
            (.mk "a" .ATTRIBUTE true [] [] none (some (.lit "1")) [])
            (.mk "a" .ATTRIBUTE true [] [] none (some (.lit "1")) [])], none) :=
  c4_object_removed_on_missing_name "a" _ _ true (by decide) rfl rfl

theorem mem_old_params_loop (new_function : Obj) (new_params : List Parameter)
    (b : Breakage) :
    ∀ (ps : List Parameter) (start j : Nat) (old_param : Parameter),
      ps[j]? = some old_param →
      b ∈ _function_param_check new_function new_params (start + j) old_param →
      b ∈ _old_params_loop new_function new_params start ps := by
  intro ps
  induction ps with
  | nil =>
    intro start j old_param h
    simp at h
  | cons p rest ih =>
    intro start j old_param h hb
    cases j with
    | zero =>
      rw [List.getElem?_cons_zero] at h
      injection h with h
      subst h
      rw [Nat.add_zero] at hb
      unfold _old_params_loop
      exact List.mem_append.mpr (Or.inl hb)
    | succ j =>
      rw [List.getElem?_cons_succ] at h
      have harith : start + (j + 1) = (start + 1) + j := by omega
      rw [harith] at hb
      unfold _old_params_loop
      exact List.mem_append.mpr (Or.inr (ih (start + 1) j old_param h hb))

/-- C7: for an old positional parameter matched by name to a new
parameter, a kind change out of the positional category yields exactly a
`PARAMETER_CHANGED_KIND` breakage and no `PARAMETER_MOVED` breakage can
be emitted for that parameter; when both kinds are positional, a
`PARAMETER_MOVED` breakage with the
`position: from {i} to {new_index} ({signed delta})` detail string is
emitted exactly when the new index differs from the old one. -/
theorem c7_positional_kind_priority (new_function : Obj)
    (new_params : List Parameter) (old_index : Nat)
    (old_param new_param : Parameter)
    (hmatch : paramLookup new_params old_param.name = some new_param)
    (hpos : POSITIONAL old_param.kind = true) :
    (POSITIONAL new_param.kind = false →
      _positional_check new_function new_params old_index old_param new_param
        = [ParameterChangedKindBreakage new_function old_param new_param] ∧
      ∀ b ∈ _function_param_check new_function new_params old_index old_param,
        b.kind ≠ .PARAMETER_MOVED) ∧
    (POSITIONAL new_param.kind = true →
      (indexOfName (new_params.map Parameter.name) old_param.name ≠ old_index →
        _positional_check new_function new_params old_index old_param new_param
          = [ParameterMovedBreakage new_function old_param new_param
              (movedDetails old_index
                (indexOfName (new_params.map Parameter.name) old_param.name))]) ∧
      (indexOfName (new_params.map Parameter.name) old_param.name = old_index →
        _positional_check new_function new_params old_index old_param new_param
          = [])) := by
  constructor
  · intro hnp
    have hck : _positional_check new_function new_params old_index old_param new_param
        = [ParameterChangedKindBreakage new_function old_param new_param] := by
      simp [_positional_check, hpos, hnp]
    refine ⟨hck, ?_⟩
    intro b hb
    unfold _function_param_check at hb
    rw [hmatch] at hb
    simp only [List.mem_append, List.mem_singleton] at hb
    rw [hck] at hb
    simp only [List.mem_append, List.mem_singleton] at hb
    rcases hb with (hb | hb) | hb
    · split at hb
      · rw [List.mem_singleton] at hb
        subst hb
        simp [ParameterChangedRequiredBreakage, Breakage.kind]
      · simp at hb
    · subst hb
      simp [ParameterChangedKindBreakage, Breakage.kind]
    · unfold _default_check at hb
      split at hb
      · simp at hb
      · rw [List.mem_singleton] at hb
        subst hb
        simp [ParameterChangedDefaultBreakage, Breakage.kind]
      · rw [List.mem_singleton] at hb
        subst hb
        simp [ParameterChangedDefaultBreakage, Breakage.kind]
  · intro hnp
    constructor
    · intro hne
      simp [_positional_check, hpos, hnp, hne]
    · intro heq
      simp [_positional_check, hpos, hnp, heq]

/-- Witness for C7: `def a(x, y)` became `def a(y, x)`; the check on `x`
(old index 0, new index 1) yields the moved breakage with detail string
`position: from 0 to 1 (+1)`; and for `def a(x)` became `def a(*, x)` the
kind-change breakage is emitted instead. -/
theorem c7_positional_kind_priority_witness :
    _positional_check (.mk "a" .FUNCTION true [] [] none none [])
      [⟨"y", .positional_or_keyword, none⟩, ⟨"x", .positional_or_keyword, none⟩]
      0 ⟨"x", .positional_or_keyword, none⟩ ⟨"x", .positional_or_keyword, none⟩
      = [ParameterMovedBreakage (.mk "a" .FUNCTION true [] [] none none [])
          ⟨"x", .positional_or_keyword, none⟩ ⟨"x", .positional_or_keyword, none⟩
          "position: from 0 to 1 (+1)"] ∧
    _positional_check (.mk "a" .FUNCTION true [] [] none none [])
      [⟨"x", .keyword_only, none⟩] 0
      ⟨"x", .positional_or_keyword, none⟩ ⟨"x", .keyword_only, none⟩
      = [ParameterChangedKindBreakage (.mk "a" .FUNCTION true [] [] none none [])
          ⟨"x", .positional_or_keyword, none⟩ ⟨"x", .keyword_only, none⟩] := by
  constructor
  · have h := ((c7_positional_kind_priority
      (.mk "a" .FUNCTION true [] [] none none [])
      [⟨"y", .positional_or_keyword, none⟩, ⟨"x", .positional_or_keyword, none⟩]
      0 ⟨"x", .positional_or_keyword, none⟩ ⟨"x", .positional_or_keyword, none⟩
      (by decide) (by decide)).2 (by decide)).1 (by decide)
    rw [h]
    simp only [ParameterMovedBreakage, List.cons.injEq, Breakage.mk.injEq, and_true,
      true_and, eq_self_iff_true]
    decide
  · exact ((c7_positional_kind_priority
      (.mk "a" .FUNCTION true [] [] none none [])
      [⟨"x", .keyword_only, none⟩] 0
      ⟨"x", .positional_or_keyword, none⟩ ⟨"x", .keyword_only, none⟩
      (by decide) (by decide)).1 (by decide)).1

/-- C6: in the function rule, for an old parameter matched by name, a
default comparison that raises any exception yields the
`PARAMETER_CHANGED_DEFAULT` breakage exactly as an unequal comparison
does, and the exception never reaches the caller: the only exception
channel of the whole function rule is the unguarded return-type check. -/
theorem c6_default_comparison_failure (old_function new_function : Obj)
    (old_index : Nat) (old_param new_param : Parameter) (e : ExcName)
    (hget : old_function.parameters[old_index]? = some old_param)
    (hmatch : paramLookup new_function.parameters old_param.name = some new_param)
    (herr : optEq old_param.default new_param.default = .error e) :
    ParameterChangedDefaultBreakage new_function old_param new_param
      ∈ (_function_incompatibilities old_function new_function).1 ∧
    _default_check new_function old_param new_param
      = [ParameterChangedDefaultBreakage new_function old_param new_param] ∧
    (_function_incompatibilities old_function new_function).2
      = (match _returns_are_compatible old_function new_function with
        | .ok _ => none
        | .error e2 => some e2) := by
  have hdc : _default_check new_function old_param new_param
      = [ParameterChangedDefaultBreakage new_function old_param new_param] := by
    unfold _default_check
    rw [herr]
  have hmem : ParameterChangedDefaultBreakage new_function old_param new_param
      ∈ _function_param_check new_function new_function.parameters old_index old_param := by
    unfold _function_param_check
    rw [hmatch]
    simp only [List.mem_append]
    right
    rw [hdc]
    exact List.mem_singleton.mpr rfl
  have hloop : ParameterChangedDefaultBreakage new_function old_param new_param
      ∈ _old_params_loop new_function new_function.parameters 0
          old_function.parameters := by
    refine mem_old_params_loop new_function new_function.parameters _
      old_function.parameters 0 old_index old_param hget ?_
    simpa using hmem
  refine ⟨?_, hdc, ?_⟩
  · unfold _function_incompatibilities
    rcases hr : _returns_are_compatible old_function new_function with e2 | b
    · simp [hr]
      tauto
    · cases b <;> simp [hr] <;> tauto
  · unfold _function_incompatibilities
    rcases hr : _returns_are_compatible old_function new_function with e2 | b
    · simp [hr]
    · cases b <;> simp [hr]

/-- Witness for C6: the old default is a value whose comparison raises
`ValueError`; the changed-default breakage is nevertheless emitted. -/
theorem c6_default_comparison_failure_witness :
    ParameterChangedDefaultBreakage
      (.mk "f" .FUNCTION true [] [⟨"x", .positional_or_keyword, some (.lit "1")⟩] none none [])
      ⟨"x", .positional_or_keyword, some (.raising 0 .valueError)⟩
      ⟨"x", .positional_or_keyword, some (.lit "1")⟩
      ∈ (_function_incompatibilities
          (.mk "f" .FUNCTION true []
            [⟨"x", .positional_or_keyword, some (.raising 0 .valueError)⟩] none none [])
          (.mk "f" .FUNCTION true []
            [⟨"x", .positional_or_keyword, some (.lit "1")⟩] none none [])).1 :=
  (c6_default_comparison_failure
    (.mk "f" .FUNCTION true []
      [⟨"x", .positional_or_keyword, some (.raising 0 .valueError)⟩] none none [])
    (.mk "f" .FUNCTION true []
      [⟨"x", .positional_or_keyword, some (.lit "1")⟩] none none []) 0
    ⟨"x", .positional_or_keyword, some (.raising 0 .valueError)⟩
    ⟨"x", .positional_or_keyword, some (.lit "1")⟩ .valueError
    rfl (by decide) rfl).1

theorem pyEq_eq_decide (a b : Value) (ha : a.wellBehaved = true)
    (hb : b.wellBehaved = true) : pyEq a b = .ok (decide (a = b)) := by
  cases a with
  | raising i e => simp [Value.wellBehaved] at ha
  | lit s =>
    cases b with
    | raising i e => simp [Value.wellBehaved] at hb
    | lit t =>
      by_cases h : s = t
      · subst h
        simp [pyEq]
      · simp [pyEq, h]

theorem listEqAux_eq_decide :
    ∀ (a b : List Value), (∀ x ∈ a, x.wellBehaved = true) →
      (∀ x ∈ b, x.wellBehaved = true) → a.length = b.length →
      listEqAux a b = .ok (decide (a = b)) := by
  intro a
  induction a with
  | nil =>
    intro b _ _ hlen
    cases b with
    | nil => simp [listEqAux]
    | cons y ys => simp at hlen
  | cons x xs ih =>
    intro b ha hb hlen
    cases b with
    | nil => simp at hlen
    | cons y ys =>
      have hx : x.wellBehaved = true := ha x (by simp)
      have hy : y.wellBehaved = true := hb y (by simp)
      have hlen' : xs.length = ys.length := by simpa using hlen
      unfold listEqAux
      rw [pyEq_eq_decide x y hx hy]
      by_cases hxy : x = y
      · subst hxy
        simp only [eq_self_iff_true, decide_True]
        rw [ih ys (fun z hz => ha z (by simp [hz])) (fun z hz => hb z (by simp [hz])) hlen']
        congr 1
        rw [decide_eq_decide]
        simp
      · simp only [hxy, decide_False]
        congr 1
        simp [hxy]

theorem listEqV_eq_decide (a b : List Value) (ha : ∀ x ∈ a, x.wellBehaved = true)
    (hb : ∀ x ∈ b, x.wellBehaved = true) :
    listEqV a b = .ok (decide (a = b)) := by
  unfold listEqV
  by_cases hlen : a.length = b.length
  · rw [if_pos hlen]
    exact listEqAux_eq_decide a b ha hb hlen
  · rw [if_neg hlen]
    have hne : ¬a = b := fun h => hlen (by rw [h])
    simp [hne]

/-- C8: the class rule emits `CLASS_REMOVED_BASE` carrying the full old
and new base lists exactly when the base sequences differ and the new
one is strictly shorter, emits nothing for the bases otherwise, and in
every case continues with the member comparison of the class members
(stated under the input contract that base values have non-failing
equality, so that the unguarded `!=` on base lists cannot raise). -/
theorem c8_class_removed_base (old_class new_class : Obj) (ignore_private : Bool)
    (hold : ∀ x ∈ old_class.bases, x.wellBehaved = true)
    (hnew : ∀ x ∈ new_class.bases, x.wellBehaved = true) :
    _class_incompatibilities old_class new_class ignore_private
      = ((if new_class.bases ≠ old_class.bases
            ∧ new_class.bases.length < old_class.bases.length then
          [ClassRemovedBaseBreakage new_class old_class.bases new_class.bases]
        else [])
        ++ (_member_incompatibilities old_class new_class ignore_private).1,
        (_member_incompatibilities old_class new_class ignore_private).2) := by
  unfold _class_incompatibilities
  rw [listEqV_eq_decide _ _ hnew hold]
  by_cases heq : new_class.bases = old_class.bases
  · simp [heq, seqGen]
  · by_cases hlt : new_class.bases.length < old_class.bases.length
    · simp [heq, hlt, seqGen]
    · simp [heq, hlt, seqGen]

/-- Witness for C8: `class A(int, str)` became `class A(int)`; exactly the
base-removal breakage carrying both full base lists is emitted. -/
theorem c8_class_removed_base_witness :
    _class_incompatibilities
      (.mk "A" .CLASS true [] [] none none [.lit "int", .lit "str"])
      (.mk "A" .CLASS true [] [] none none [.lit "int"]) true
      = ([ClassRemovedBaseBreakage
            (.mk "A" .CLASS true [] [] none none [.lit "int"])
            [.lit "int", .lit "str"] [.lit "int"]], none) := by
  rw [c8_class_removed_base
    (.mk "A" .CLASS true [] [] none none [.lit "int", .lit "str"])
    (.mk "A" .CLASS true [] [] none none [.lit "int"]) true
    (by decide) (by decide)]
  rw [if_pos (⟨by decide, by decide⟩ : _ ∧ _)]
  simp [_member_incompatibilities, _members_walk, Obj.members, Obj.bases]

theorem optEq_refl (v : Option Value) (h : optWellBehaved v = true) :
    optEq v v = .ok true := by
  cases v with
  | none => rfl
  | some x =>
    simp only [optWellBehaved] at h
    simp [optEq, pyEq_eq_decide x x h h]

theorem mem_of_getElem?_param :
    ∀ (ps : List Parameter) (i : Nat) (p : Parameter), ps[i]? = some p → p ∈ ps := by
  intro ps
  induction ps with
  | nil =>
    intro i p h
    simp at h
  | cons q rest ih =>
    intro i p h
    cases i with
    | zero =>
      rw [List.getElem?_cons_zero] at h
      injection h with h
      subst h
      exact List.mem_cons_self q rest
    | succ i =>
      rw [List.getElem?_cons_succ] at h
      exact List.mem_cons_of_mem q (ih i p h)

theorem paramLookup_self :
    ∀ (ps : List Parameter), (ps.map Parameter.name).Nodup →
      ∀ (i : Nat) (p : Parameter), ps[i]? = some p →
      paramLookup ps p.name = some p := by
  intro ps
  induction ps with
  | nil =>
    intro _ i p h
    simp at h
  | cons q rest ih =>
    intro hnd i p h
    rw [List.map_cons, List.nodup_cons] at hnd
    cases i with
    | zero =>
      rw [List.getElem?_cons_zero] at h
      injection h with h
      subst h
      unfold paramLookup
      simp
    | succ i =>
      rw [List.getElem?_cons_succ] at h
      have hp : p ∈ rest := mem_of_getElem?_param rest i p h
      have hne : ¬q.name = p.name := by
        intro hq
        exact hnd.1 (hq ▸ List.mem_map_of_mem Parameter.name hp)
      unfold paramLookup
      rw [if_neg (by simp [hne])]
      exact ih hnd.2 i p h

theorem indexOfName_self :
    ∀ (names : List String), names.Nodup →
      ∀ (i : Nat) (nm : String), names[i]? = some nm →
      indexOfName names nm = i := by
  intro names
  induction names with
  | nil =>
    intro _ i nm h
    simp at h
  | cons n rest ih =>
    intro hnd i nm h
    rw [List.nodup_cons] at hnd
    cases i with
    | zero =>
      rw [List.getElem?_cons_zero] at h
      injection h with h
      subst h
      unfold indexOfName
      simp
    | succ i =>
      rw [List.getElem?_cons_succ] at h
      have hm : nm ∈ rest := by
        have := List.getElem?_eq_some.mp h
        obtain ⟨hlt, hget⟩ := this
        exact hget ▸ List.getElem_mem hlt
      have hne : ¬n = nm := fun hq => hnd.1 (hq ▸ hm)
      unfold indexOfName
      rw [if_neg (by simp [hne]), ih hnd.2 i nm h]

theorem paramContains_of_mem :
    ∀ (ps : List Parameter) (p : Parameter), p ∈ ps →
      paramContains ps p.name = true := by
  intro ps
  induction ps with
  | nil =>
    intro p h
    simp at h
  | cons q rest ih =>
    intro p h
    unfold paramContains paramLookup
    by_cases hb : (q.name == p.name) = true
    · simp [hb]
    · rw [if_neg (by simp at hb ⊢; exact hb)]
      rw [List.mem_cons] at h
      rcases h with h | h
      · exfalso
        apply hb
        rw [h]
        simp
      · exact ih p h

theorem lookupMember_self :
    ∀ (ms : List (String × Obj)), (ms.map Prod.fst).Nodup →
      ∀ (name : String) (m : Obj), (name, m) ∈ ms →
      lookupMember ms name = some m := by
  intro ms
  induction ms with
  | nil =>
    intro _ name m h
    simp at h
  | cons x rest ih =>
    intro hnd name m h
    obtain ⟨n, m'⟩ := x
    rw [List.map_cons, List.nodup_cons] at hnd
    rw [List.mem_cons] at h
    unfold lookupMember
    by_cases hb : n = name
    · subst hb
      rw [if_pos (by simp)]
      rcases h with h | h
      · injection h with h1 h2
        rw [h2]
      · exact absurd (List.mem_map_of_mem Prod.fst h) hnd.1
    · rw [if_neg (by simp [hb])]
      rcases h with h | h
      · injection h with h1 h2
        exact absurd h1.symm hb
      · exact ih hnd.2 name m h

theorem wellFormed_parts (o : Obj) (h : wellFormed o = true) :
    (o.members.map Prod.fst).Nodup ∧ (o.parameters.map Parameter.name).Nodup ∧
    (∀ p ∈ o.parameters, optWellBehaved p.default = true) ∧
    optWellBehaved o.returns = true ∧ optWellBehaved o.value = true ∧
    (∀ x ∈ o.bases, x.wellBehaved = true) ∧
    wellFormedMembers o.members = true := by
  rw [wellFormed] at h
  simp only [Bool.and_eq_true, decide_eq_true_eq, List.all_eq_true] at h
  tauto

theorem wellFormedMembers_mem :
    ∀ (ms : List (String × Obj)), wellFormedMembers ms = true →
      ∀ (name : String) (m : Obj), (name, m) ∈ ms → wellFormed m = true := by
  intro ms
  induction ms with
  | nil =>
    intro _ name m h
    simp at h
  | cons x rest ih =>
    intro hwf name m h
    obtain ⟨n, m'⟩ := x
    rw [wellFormedMembers, Bool.and_eq_true] at hwf
    rw [List.mem_cons] at h
    rcases h with h | h
    · injection h with h1 h2
      rw [h2]
      exact hwf.1
    · exact ih hwf.2 name m h

theorem old_params_loop_self (f : Obj) (full : List Parameter)
    (hnd : (full.map Parameter.name).Nodup)
    (hwb : ∀ p ∈ full, optWellBehaved p.default = true) :
    ∀ (rest : List Parameter) (start : Nat),
      (∀ j : Nat, rest[j]? = full[start + j]?) →
      _old_params_loop f full start rest = [] := by
  intro rest
  induction rest with
  | nil =>
    intro start _
    rfl
  | cons p rest ih =>
    intro start hj
    have h0 : full[start]? = some p := by
      have := hj 0
      rw [List.getElem?_cons_zero, Nat.add_zero] at this
      exact this.symm
    have hpmem : p ∈ full := mem_of_getElem?_param full start p h0
    have hlook : paramLookup full p.name = some p := paramLookup_self full hnd start p h0
    have hidx : indexOfName (full.map Parameter.name) p.name = start := by
      refine indexOfName_self _ hnd start p.name ?_
      rw [List.getElem?_map, h0]
      rfl
    unfold _old_params_loop
    rw [ih (start + 1) (fun j => by
      have := hj (j + 1)
      rw [List.getElem?_cons_succ] at this
      rw [this]
      congr 1
      omega)]
    rw [List.append_nil]
    have hreq : (_is_param_required p && !_is_param_required p) = false := by
      cases _is_param_required p <;> rfl
    have hpc : _positional_check f full start p p = [] := by
      unfold _positional_check
      rw [hidx]
      cases hpk : POSITIONAL p.kind <;> simp [hpk]
    have hdc : _default_check f p p = [] := by
      unfold _default_check
      rw [optEq_refl p.default (hwb p hpmem)]
    unfold _function_param_check
    simp only [hlook, hreq, hpc, hdc]
    simp

theorem new_params_loop_self (f : Obj) (full : List Parameter) :
    ∀ (rest : List Parameter), (∀ p ∈ rest, p ∈ full) →
      _new_params_loop f full rest = [] := by
  intro rest
  induction rest with
  | nil =>
    intro _
    rfl
  | cons p r ih =>
    intro h
    unfold _new_params_loop
    rw [paramContains_of_mem full p (h p (List.mem_cons_self p r))]
    rw [ih (fun q hq => h q (List.mem_cons_of_mem p hq))]
    rfl

theorem returns_are_compatible_self (f : Obj) (h : optWellBehaved f.returns = true) :
    _returns_are_compatible f f = .ok true := by
  unfold _returns_are_compatible
  cases hr : f.returns with
  | none => rfl
  | some r =>
    rw [hr] at h
    simp only [optWellBehaved] at h
    simp only [pyEq_eq_decide r r h h]

theorem function_incompatibilities_self (f : Obj)
    (hnd : (f.parameters.map Parameter.name).Nodup)
    (hwb : ∀ p ∈ f.parameters, optWellBehaved p.default = true)
    (hret : optWellBehaved f.returns = true) :
    _function_incompatibilities f f = ([], none) := by
  simp only [_function_incompatibilities, returns_are_compatible_self f hret,
    old_params_loop_self f f.parameters hnd hwb f.parameters 0 (fun j => by simp),
    new_params_loop_self f f.parameters f.parameters (fun p hp => hp),
    List.append_nil]

theorem attribute_incompatibilities_self (f : Obj)
    (h : optWellBehaved f.value = true) :
    _attribute_incompatibilities f f = ([], none) := by
  unfold _attribute_incompatibilities
  rw [optEq_refl f.value h]

theorem sizeOf_snd_lt_of_mem_members {o : Obj} {name : String} {m : Obj}
    (h : (name, m) ∈ o.members) : sizeOf m < sizeOf o := by
  have h1 : sizeOf (name, m) < sizeOf o.members := List.sizeOf_lt_of_mem h
  have h2 : sizeOf o.members < sizeOf o := o.sizeOf_members_lt
  have h3 : sizeOf (name, m) = 1 + sizeOf name + sizeOf m := rfl
  omega


theorem sizeOf_cons_members (name : String) (m : Obj)
    (rest : List (String × Obj)) :
    sizeOf ((name, m) :: rest) = 1 + (1 + sizeOf name + sizeOf m) + sizeOf rest :=
  rfl

mutual
theorem member_incompatibilities_self (o : Obj) (ip : Bool)
    (h : wellFormed o = true) :
    _member_incompatibilities o o ip = ([], none) := by
  rw [_member_incompatibilities]
  exact members_walk_self o o.members ip (fun x hx => hx) h
termination_by 5 * sizeOf o
decreasing_by
  have := o.sizeOf_members_lt
  omega

theorem members_walk_self (o : Obj) (ms : List (String × Obj)) (ip : Bool)
    (hsub : ∀ x ∈ ms, x ∈ o.members) (h : wellFormed o = true) :
    _members_walk ms o ip = ([], none) := by
  cases hms : ms with
  | nil => rw [_members_walk]
  | cons x rest =>
    obtain ⟨name, m⟩ := x
    rw [_members_walk]
    rw [member_check_self o name m ip (hsub _ (hms ▸ List.mem_cons_self _ _)) h]
    rw [members_walk_self o rest ip
      (fun y hy => hsub y (hms ▸ List.mem_cons_of_mem _ hy)) h]
    rfl
termination_by 4 * sizeOf o + sizeOf ms
decreasing_by
  · rw [hms]
    have := sizeOf_cons_members name m rest
    omega
  · rw [hms]
    have := sizeOf_cons_members name m rest
    omega

theorem member_check_self (o : Obj) (name : String) (m : Obj) (ip : Bool)
    (hmem : (name, m) ∈ o.members) (h : wellFormed o = true) :
    _member_check name m o ip = ([], none) := by
  obtain ⟨hnd, _, _, _, _, _, hwfm⟩ := wellFormed_parts o h
  have hm : wellFormed m = true := wellFormedMembers_mem o.members hwfm name m hmem
  rw [_member_check]
  cases hc : (ip && startsWithUnderscore name) with
  | true => simp
  | false =>
    simp only [Bool.false_eq_true, if_false]
    rw [lookupMember_self o.members hnd name m hmem]
    simp only
    cases hk : m.kind with
    | ALIAS => simp [Obj.is_alias, hk]
    | MODULE =>
      simp only [Obj.is_alias, Obj.is_module, hk, beq_self_eq_true, ne_eq,
        not_true_eq_false, if_false, if_true, beq_iff_eq, reduceCtorEq]
      exact member_incompatibilities_self m ip hm
    | CLASS =>
      simp only [Obj.is_alias, Obj.is_module, Obj.is_class, hk, beq_self_eq_true, ne_eq,
        not_true_eq_false, if_false, if_true, beq_iff_eq, reduceCtorEq]
      exact class_incompatibilities_self m ip hm
    | FUNCTION =>
      obtain ⟨_, hndp, hwbp, hret, _, _, _⟩ := wellFormed_parts m hm
      simp only [Obj.is_alias, Obj.is_module, Obj.is_class, Obj.is_function, hk,
        beq_self_eq_true, ne_eq, not_true_eq_false, if_false, if_true, beq_iff_eq,
        reduceCtorEq]
      exact function_incompatibilities_self m hndp hwbp hret
    | ATTRIBUTE =>
      obtain ⟨_, _, _, _, hval, _, _⟩ := wellFormed_parts m hm
      simp only [Obj.is_alias, Obj.is_module, Obj.is_class, Obj.is_function,
        Obj.is_attribute, hk, beq_self_eq_true, ne_eq, not_true_eq_false, if_false,
        if_true, beq_iff_eq, reduceCtorEq]
      exact attribute_incompatibilities_self m hval
termination_by 4 * sizeOf o + sizeOf m
decreasing_by
  · have := sizeOf_snd_lt_of_mem_members hmem
    omega
  · have := sizeOf_snd_lt_of_mem_members hmem
    omega

theorem class_incompatibilities_self (c : Obj) (ip : Bool)
    (h : wellFormed c = true) :
    _class_incompatibilities c c ip = ([], none) := by
  obtain ⟨_, _, _, _, _, hbases, _⟩ := wellFormed_parts c h
  rw [_class_incompatibilities]
  have hb : listEqV c.bases c.bases = .ok true := by
    rw [listEqV_eq_decide _ _ hbases hbases]
    simp
  rw [hb]
  simp only [if_true]
  rw [member_incompatibilities_self c ip h]
  rfl
termination_by 5 * sizeOf c + 1
end

/-- C5: for every well-formed declaration tree (dict-backed member
mappings, unique parameter names, deterministic non-failing value
equality on defaults, attribute values, return expressions and bases),
diffing a tree against itself yields no breakage and raises no
exception. -/
theorem c5_identity_no_breakage (T : Obj) (h : wellFormed T = true) :
    find_breaking_changes T T = ([], none) :=
  member_incompatibilities_self T true h

/-- Witness for C5 on a concrete module containing a class with a method,
and an attribute. -/
theorem c5_identity_no_breakage_witness :
    find_breaking_changes
      (.mk "m" .MODULE true
        [("C", .mk "C" .CLASS true
          [("meth", .mk "meth" .FUNCTION true []
            [⟨"x", .positional_or_keyword, some (.lit "0")⟩] (some (.lit "int")) none [])]
          [] none none [.lit "object"]),
         ("a", .mk "a" .ATTRIBUTE true [] [] none (some (.lit "1")) [])]
        [] none none [])
      (.mk "m" .MODULE true
        [("C", .mk "C" .CLASS true
          [("meth", .mk "meth" .FUNCTION true []
            [⟨"x", .positional_or_keyword, some (.lit "0")⟩] (some (.lit "int")) none [])]
          [] none none [.lit "object"]),
         ("a", .mk "a" .ATTRIBUTE true [] [] none (some (.lit "1")) [])]
        [] none none [])
      = ([], none) := by
  refine c5_identity_no_breakage _ ?_
  simp [wellFormed, wellFormedMembers, Obj.members, Obj.parameters, Obj.returns,
    Obj.value, Obj.bases, optWellBehaved, Value.wellBehaved]

theorem mem_seqGen {b : Breakage} {x y : GenResult}
    (h : b ∈ (seqGen x y).1) : b ∈ x.1 ∨ b ∈ y.1 := by
  obtain ⟨l, e⟩ := x
  cases e with
  | none =>
    simp only [seqGen] at h
    exact List.mem_append.mp h
  | some e =>
    simp only [seqGen] at h
    exact Or.inl h

theorem restrictMembers_members (o : Obj) (ns : List String) :
    (restrictMembers o ns).members = o.members.filter (fun m => ns.contains m.1) := by
  cases o
  rfl

theorem lookupMember_filter (ns : List String) :
    ∀ (ms : List (String × Obj)) (name : String), ns.contains name = true →
      lookupMember (ms.filter (fun m => ns.contains m.1)) name
        = lookupMember ms name := by
  intro ms
  induction ms with
  | nil =>
    intro name _
    rfl
  | cons x rest ih =>
    intro name hn
    obtain ⟨n, m⟩ := x
    by_cases hc : ns.contains n = true
    · simp only [List.filter_cons, hc, if_true]
      unfold lookupMember
      by_cases hb : (n == name) = true
      · rw [if_pos hb, if_pos hb]
      · rw [if_neg hb, if_neg hb]
        exact ih name hn
    · have hcf : ns.contains n = false := by
        cases hcc : ns.contains n
        · rfl
        · exact absurd hcc hc
      simp only [List.filter_cons, hcf, Bool.false_eq_true, if_false]
      have hb : (n == name) = false := by
        apply beq_eq_false_iff_ne.mpr
        intro heq
        rw [heq, hn] at hcf
        exact Bool.true_eq_false.mp hcf
      rw [ih name hn]
      conv_rhs => rw [lookupMember]
      rw [if_neg (by simp [hb])]

theorem members_walk_restrict (ns : List String) (new_obj : Obj) (ip : Bool) :
    ∀ (ms : List (String × Obj)), (∀ x ∈ ms, ns.contains x.1 = true) →
      _members_walk ms (restrictMembers new_obj ns) ip
        = _members_walk ms new_obj ip := by
  intro ms
  induction ms with
  | nil =>
    intro _
    rw [_members_walk, _members_walk]
  | cons x rest ih =>
    intro hall
    obtain ⟨name, m⟩ := x
    have hcheck : _member_check name m (restrictMembers new_obj ns) ip
        = _member_check name m new_obj ip := by
      rw [_member_check, _member_check, restrictMembers_members,
        lookupMember_filter ns new_obj.members name (hall _ (List.mem_cons_self _ _))]
    rw [_members_walk, _members_walk, hcheck,
      ih (fun y hy => hall y (List.mem_cons_of_mem _ hy))]

theorem function_param_check_old_value (nf : Obj) (nps : List Parameter)
    (i : Nat) (op : Parameter) :
    ∀ b ∈ _function_param_check nf nps i op, ∃ p, b.old_value = BVal.param p := by
  intro b hb
  unfold _function_param_check at hb
  rcases hl : paramLookup nps op.name with _ | np
  · rw [hl] at hb
    simp only [List.mem_singleton] at hb
    exact ⟨op, by rw [hb]; rfl⟩
  · rw [hl] at hb
    simp only [List.mem_append, List.mem_singleton] at hb
    rcases hb with (hb | hb) | hb
    · split at hb
      · rw [List.mem_singleton] at hb
        exact ⟨op, by rw [hb]; rfl⟩
      · simp at hb
    · unfold _positional_check at hb
      simp only [ne_eq] at hb
      split at hb
      · split at hb
        · rw [List.mem_singleton] at hb
          exact ⟨op, by rw [hb]; rfl⟩
        · split at hb
          · rw [List.mem_singleton] at hb
            exact ⟨op, by rw [hb]; rfl⟩
          · simp at hb
      · simp at hb
    · unfold _default_check at hb
      split at hb
      · simp at hb
      · rw [List.mem_singleton] at hb
        exact ⟨op, by rw [hb]; rfl⟩
      · rw [List.mem_singleton] at hb
        exact ⟨op, by rw [hb]; rfl⟩

theorem old_params_loop_old_value (nf : Obj) (nps : List Parameter) :
    ∀ (ps : List Parameter) (start : Nat) (b : Breakage),
      b ∈ _old_params_loop nf nps start ps → ∃ p, b.old_value = BVal.param p := by
  intro ps
  induction ps with
  | nil =>
    intro start b hb
    simp [_old_params_loop] at hb
  | cons p rest ih =>
    intro start b hb
    unfold _old_params_loop at hb
    rcases List.mem_append.mp hb with hb | hb
    · exact function_param_check_old_value nf nps start p b hb
    · exact ih (start + 1) b hb

theorem new_params_loop_kind (nf : Obj) (ops : List Parameter) :
    ∀ (nps : List Parameter) (b : Breakage), b ∈ _new_params_loop nf ops nps →
      b.kind = .PARAMETER_ADDED_REQUIRED := by
  intro nps
  induction nps with
  | nil =>
    intro b hb
    simp [_new_params_loop] at hb
  | cons p rest ih =>
    intro b hb
    unfold _new_params_loop at hb
    rcases List.mem_append.mp hb with hb | hb
    · split at hb
      · rw [List.mem_singleton] at hb
        rw [hb]
        rfl
      · simp at hb
    · exact ih b hb

theorem function_incompatibilities_shape (f g : Obj) (b : Breakage)
    (hb : b ∈ (_function_incompatibilities f g).1)
    (hold : b.old_value = BVal.none) :
    b.kind = .PARAMETER_ADDED_REQUIRED := by
  unfold _function_incompatibilities at hb
  have hcore : b ∈ _old_params_loop g g.parameters 0 f.parameters
        ++ _new_params_loop g f.parameters g.parameters →
      b.kind = .PARAMETER_ADDED_REQUIRED := by
    intro hc
    rcases List.mem_append.mp hc with hc | hc
    · obtain ⟨p, hp⟩ := old_params_loop_old_value g g.parameters f.parameters 0 b hc
      rw [hold] at hp
      exact absurd hp (by simp)
    · exact new_params_loop_kind g f.parameters g.parameters b hc
  rcases hr : _returns_are_compatible f g with e | bb
  · rw [hr] at hb
    exact hcore hb
  · cases bb
    · rw [hr] at hb
      simp only [List.append_assoc, List.mem_append, List.mem_singleton] at hb
      rcases hb with hb | hb | hb
      · exact hcore (List.mem_append.mpr (Or.inl hb))
      · exact hcore (List.mem_append.mpr (Or.inr hb))
      · rw [hb] at hold
        exact absurd hold (by simp [ReturnChangedTypeBreakage])
    · rw [hr] at hb
      exact hcore hb

theorem attribute_incompatibilities_old_value (f g : Obj) (b : Breakage)
    (hb : b ∈ (_attribute_incompatibilities f g).1) :
    ∃ v, b.old_value = BVal.value v := by
  unfold _attribute_incompatibilities at hb
  split at hb
  · simp at hb
  · rw [List.mem_singleton] at hb
    exact ⟨f.value, by rw [hb]; rfl⟩
  · simp at hb

mutual
theorem member_incompatibilities_shape (o n : Obj) (ip : Bool) (b : Breakage)
    (hb : b ∈ (_member_incompatibilities o n ip).1)
    (hold : b.old_value = BVal.none) :
    b.kind = .PARAMETER_ADDED_REQUIRED := by
  rw [_member_incompatibilities] at hb
  exact members_walk_shape o.members n ip b hb hold
termination_by 6 * sizeOf o
decreasing_by
  have := o.sizeOf_members_lt
  omega

theorem members_walk_shape (ms : List (String × Obj)) (n : Obj) (ip : Bool)
    (b : Breakage) (hb : b ∈ (_members_walk ms n ip).1)
    (hold : b.old_value = BVal.none) :
    b.kind = .PARAMETER_ADDED_REQUIRED := by
  cases hms : ms with
  | nil =>
    rw [hms, _members_walk] at hb
    simp at hb
  | cons x rest =>
    obtain ⟨name, m⟩ := x
    rw [hms, _members_walk] at hb
    rcases mem_seqGen hb with hb | hb
    · exact member_check_shape name m n ip b hb hold
    · exact members_walk_shape rest n ip b hb hold
termination_by 6 * sizeOf ms
decreasing_by
  · rw [hms]
    have := sizeOf_cons_members name m rest
    omega
  · rw [hms]
    have := sizeOf_cons_members name m rest
    omega

theorem member_check_shape (name : String) (m : Obj) (n : Obj) (ip : Bool)
    (b : Breakage) (hb : b ∈ (_member_check name m n ip).1)
    (hold : b.old_value = BVal.none) :
    b.kind = .PARAMETER_ADDED_REQUIRED := by
  rw [_member_check] at hb
  split at hb
  · simp at hb
  · split at hb
    · split at hb
      · rw [List.mem_singleton] at hb
        rw [hb] at hold
        exact absurd hold (by simp [ObjectRemovedBreakage])
      · simp at hb
    · split at hb
      · simp at hb
      · split at hb
        · rw [List.mem_singleton] at hb
          rw [hb] at hold
          exact absurd hold (by simp [ObjectChangedKindBreakage])
        · split at hb
          · exact member_incompatibilities_shape m _ ip b hb hold
          · split at hb
            · exact class_incompatibilities_shape m _ ip b hb hold
            · split at hb
              · exact function_incompatibilities_shape m _ b hb hold
              · split at hb
                · obtain ⟨v, hv⟩ :=
                    attribute_incompatibilities_old_value m _ b hb
                  rw [hold] at hv
                  exact absurd hv (by simp)
                · simp at hb
termination_by 6 * sizeOf m + 6
decreasing_by
  · omega
  · omega

theorem class_incompatibilities_shape (c n : Obj) (ip : Bool) (b : Breakage)
    (hb : b ∈ (_class_incompatibilities c n ip).1)
    (hold : b.old_value = BVal.none) :
    b.kind = .PARAMETER_ADDED_REQUIRED := by
  rw [_class_incompatibilities] at hb
  split at hb
  · simp at hb
  · rcases mem_seqGen hb with hb | hb
    · split at hb
      · simp at hb
      · split at hb
        · rw [List.mem_singleton] at hb
          rw [hb] at hold
          exact absurd hold (by simp [ClassRemovedBaseBreakage])
        · simp at hb
    · exact member_incompatibilities_shape c n ip b hb hold
termination_by 6 * sizeOf c + 1
end

/-- C10: the walk only looks at names of the old container: restricting
the new tree's member mapping to the old tree's member names leaves the
whole diff unchanged (so a member existing only in the new tree never
produces a breakage), and the only breakage ever carrying no old value —
the only reported addition — is `PARAMETER_ADDED_REQUIRED`. -/
theorem c10_only_old_names (old_obj new_obj : Obj) (ignore_private : Bool) :
    find_breaking_changes old_obj
        (restrictMembers new_obj (old_obj.members.map Prod.fst)) ignore_private
      = find_breaking_changes old_obj new_obj ignore_private ∧
    (∀ b ∈ (find_breaking_changes old_obj new_obj ignore_private).1,
      b.old_value = BVal.none → b.kind = .PARAMETER_ADDED_REQUIRED) := by
  constructor
  · rw [find_breaking_changes, find_breaking_changes, _member_incompatibilities,
      _member_incompatibilities]
    refine members_walk_restrict _ new_obj ignore_private old_obj.members ?_
    intro x hx
    exact List.elem_eq_true_of_mem (List.mem_map_of_mem Prod.fst hx)
  · intro b hb hold
    rw [find_breaking_changes] at hb
    exact member_incompatibilities_shape old_obj new_obj ignore_private b hb hold

/-- Witness for C10: old module has only `f()`; the new module has `f(x)`
plus an extra member `g` that the restriction removes without changing
the outcome, and the single emitted breakage with an absent old value is
the required-parameter addition. -/
theorem c10_only_old_names_witness :
    (ParameterAddedRequiredBreakage
        (.mk "f" .FUNCTION true [] [⟨"x", .positional_or_keyword, none⟩] none none [])
        ⟨"x", .positional_or_keyword, none⟩).kind = .PARAMETER_ADDED_REQUIRED ∧
    find_breaking_changes
        (.mk "m" .MODULE true [("f", .mk "f" .FUNCTION true [] [] none none [])]
          [] none none [])
        (restrictMembers
          (.mk "m" .MODULE true
            [("f", .mk "f" .FUNCTION true [] [⟨"x", .positional_or_keyword, none⟩]
                none none []),
             ("g", .mk "g" .ATTRIBUTE true [] [] none (some (.lit "2")) [])]
            [] none none [])
          ((Obj.mk "m" .MODULE true [("f", .mk "f" .FUNCTION true [] [] none none [])]
            [] none none []).members.map Prod.fst)) true
      = find_breaking_changes
          (.mk "m" .MODULE true [("f", .mk "f" .FUNCTION true [] [] none none [])]
            [] none none [])
          (.mk "m" .MODULE true
            [("f", .mk "f" .FUNCTION true [] [⟨"x", .positional_or_keyword, none⟩]
                none none []),
             ("g", .mk "g" .ATTRIBUTE true [] [] none (some (.lit "2")) [])]
            [] none none []) true := by
  constructor
  · refine (c10_only_old_names
      (.mk "m" .MODULE true [("f", .mk "f" .FUNCTION true [] [] none none [])]
        [] none none [])
      (.mk "m" .MODULE true
        [("f", .mk "f" .FUNCTION true [] [⟨"x", .positional_or_keyword, none⟩]
            none none []),
         ("g", .mk "g" .ATTRIBUTE true [] [] none (some (.lit "2")) [])]
        [] none none []) true).2 _ ?_ rfl
    have h1 : startsWithUnderscore "f" = false := by decide
    simp [find_breaking_changes, _member_incompatibilities, _members_walk, _member_check,
      seqGen, lookupMember, Obj.members, Obj.kind, Obj.is_alias, Obj.is_module,
      Obj.is_class, Obj.is_function, h1, _function_incompatibilities, _old_params_loop,
      _new_params_loop, _returns_are_compatible, Obj.returns, Obj.parameters,
      paramContains, paramLookup, _is_param_required, POSITIONAL]
  · exact (c10_only_old_names
      (.mk "m" .MODULE true [("f", .mk "f" .FUNCTION true [] [] none none [])]
        [] none none [])
      (.mk "m" .MODULE true
        [("f", .mk "f" .FUNCTION true [] [⟨"x", .positional_or_keyword, none⟩]
            none none []),
         ("g", .mk "g" .ATTRIBUTE true [] [] none (some (.lit "2")) [])]
        [] none none []) true).1
